import Mathlib

/-!
Shallow embedding of the minifitna backend (src/backend/app.py), a small
fitness-tracking API: users, daily weight entries, daily run entries, a
profile-update endpoint, list endpoints with date-range filters, and a
summary endpoint computing latest weight, delta to target, a 7-day run
total and backward streaks.

Modelling choices:
* calendar days (ISO date strings in the code, compared lexicographically,
  which agrees with chronological order) are modelled as `Int` day numbers;
* SQL REAL values are modelled as `Rat`;
* each SQLite table is a Lean list of row structures; the SQL queries of
  each endpoint are translated clause by clause (filter for WHERE,
  mergeSort for ORDER BY, head? for LIMIT 1, an Option-valued sum for the
  NULL-propagating SUM aggregate);
* `hashlib.pbkdf2_hmac` is an external primitive and is modelled as an
  explicit function parameter `(hashName, password, salt, iterations) →
  digest`; the code always applies it to the static salt
  "static_salt_change_me" and 200000 iterations.
-/

namespace Minifitna

/-- Calendar day, modelled as an integer day number (the code stores ISO
date strings whose lexicographic order coincides with day order). -/
abbrev Day := Int

/-- A row of the `users` table (columns relevant to the claims). -/
structure User where
  id : Nat
  username : String
  passwordHash : String
  targetWeight : Rat
  dailyRunKm : Rat
  weighTime : String
  runTime : String
deriving Repr, DecidableEq

/-- A row of the `weights` table: one weight entry per (user, day). -/
structure WeightRow where
  userId : Nat
  day : Day
  weightKg : Rat
deriving Repr, DecidableEq

/-- A row of the `runs` table: one run entry per (user, day). -/
structure RunRow where
  userId : Nat
  day : Day
  distanceKm : Rat
  durationMin : Rat
deriving Repr, DecidableEq

/-- The SQLite database: the three tables created by `init_db`. -/
structure DB where
  users : List User
  weights : List WeightRow
  runs : List RunRow
deriving Repr, DecidableEq

/-- The JSON error codes returned by the endpoints modelled here. -/
inductive ApiError where
  | usernamePasswordRequired
  | usernameTaken
  | invalidCredentials
deriving Repr, DecidableEq

/-- The claim set of the JWT issued by `create_token` (the HMAC signature
itself is external glue; the payload is what the code constructs). -/
structure Token where
  sub : Nat
  username : String
  iat : Nat
  exp : Nat
deriving Repr, DecidableEq

/-- Model of `create_token(user_id, username)`: payload with issued-at `now` and a
14-day expiry, as in the code (`exp = now + 60*60*24*14`). -/
def create_token (now : Nat) (user_id : Nat) (username : String) : Token :=
  { sub := user_id, username := username, iat := now, exp := now + 60 * 60 * 24 * 14 }

/-- The type of the external `hashlib.pbkdf2_hmac` primitive:
(hash name, password, salt, iteration count) → hex digest. -/
abbrev Pbkdf2 := String → String → String → Nat → String

/-- Model of `_hash_password`: PBKDF2-HMAC-SHA256 of the password with the static
salt "static_salt_change_me" and 200000 iterations. -/
def hash_password (pbkdf2 : Pbkdf2) (password : String) : String :=
  pbkdf2 "sha256" password "static_salt_change_me" 200000

/-- Model of `hmac.compare_digest`: constant-time equality of two digests; its
result is equality of the strings. -/
def compare_digest (a b : String) : Bool :=
  a == b

/-- Model of `_verify_password`: recompute the hash of the candidate password and
compare digests. -/
def verify_password (pbkdf2 : Pbkdf2) (password password_hash : String) : Bool :=
  compare_digest (hash_password pbkdf2 password) password_hash

/-- Python's `str.strip()`: drop whitespace from both ends (written on
the character list so that it evaluates by kernel reduction; Lean's
built-in `String.trim` is extensionally the same but does not reduce). -/
def pyStrip (s : String) : String :=
  ⟨((s.data.dropWhile Char.isWhitespace).reverse.dropWhile Char.isWhitespace).reverse⟩

/-- Python's `str.lower()` on the ASCII usernames at issue: lowercase each
character. -/
def pyLower (s : String) : String :=
  ⟨s.data.map Char.toLower⟩

/-- Username normalisation applied by register and login:
`(data.get("username") or "").strip().lower()`. -/
def normUsername (s : String) : String :=
  pyLower (pyStrip s)

/-- The query `SELECT * FROM users WHERE username = ?` (usernames are unique). -/
def findUser (db : DB) (username : String) : Option User :=
  db.users.find? (fun u => u.username == username)

/-- Schema default for `target_weight`. -/
def defaultTargetWeight : Rat := 80

/-- Schema default for `daily_run_km`. -/
def defaultDailyRunKm : Rat := 10

/-- Schema default for `weigh_time`. -/
def defaultWeighTime : String := "08:00"

/-- Schema default for `run_time`. -/
def defaultRunTime : String := "18:00"

/-- POST `/api/register`: strip/lowercase the username, reject empty
fields with `username_password_required`, reject an existing username with
`username_taken` (the UNIQUE constraint raises IntegrityError), otherwise
insert the user with the schema's default goal fields and return a token.
`newId` is the AUTOINCREMENT id assigned to the inserted row and `now` the
wall-clock time used for the token. -/
def register (pbkdf2 : Pbkdf2) (db : DB) (now newId : Nat)
    (usernameRaw password : String) : Except ApiError (DB × Token) :=
  let username := normUsername usernameRaw
  if username = "" ∨ password = "" then
    .error .usernamePasswordRequired
  else if (findUser db username).isSome then
    .error .usernameTaken
  else
    let user : User :=
      { id := newId, username := username,
        passwordHash := hash_password pbkdf2 password,
        targetWeight := defaultTargetWeight, dailyRunKm := defaultDailyRunKm,
        weighTime := defaultWeighTime, runTime := defaultRunTime }
    .ok ({ db with users := db.users ++ [user] }, create_token now newId username)

/-- POST `/api/login`: strip/lowercase the username, reject empty fields,
answer `invalid_credentials` both when the user row is absent and when the
password hash does not verify, otherwise return a token. -/
def login (pbkdf2 : Pbkdf2) (db : DB) (now : Nat)
    (usernameRaw password : String) : Except ApiError Token :=
  let username := normUsername usernameRaw
  if username = "" ∨ password = "" then
    .error .usernamePasswordRequired
  else
    match findUser db username with
    | none => .error .invalidCredentials
    | some row =>
        if verify_password pbkdf2 password row.passwordHash then
          .ok (create_token now row.id username)
        else
          .error .invalidCredentials

/-- The JSON body of PUT `/api/me`: each goal field independently present
or absent (`data.get(key, default)`). -/
structure ProfileUpdate where
  target_weight : Option Rat
  daily_run_km : Option Rat
  weigh_time : Option String
  run_time : Option String
deriving Repr, DecidableEq

/-- PUT `/api/me` (`me_update`): UPDATE all four goal columns of the
user's row, each taken from the request body with `data.get(key, default)`
— an absent key yields the fixed default, never the stored value — and
return the updated row. -/
def me_update (u : User) (data : ProfileUpdate) : User :=
  { u with
    targetWeight := data.target_weight.getD 80,
    dailyRunKm := data.daily_run_km.getD 10,
    weighTime := data.weigh_time.getD "08:00",
    runTime := data.run_time.getD "18:00" }

/-- The WHERE clause `user_id=? AND day=?` on the weights table. -/
def weightKey (uid : Nat) (day : Day) (r : WeightRow) : Bool :=
  r.userId == uid && r.day == day

/-- The WHERE clause `user_id=? AND day=?` on the runs table. -/
def runKey (uid : Nat) (day : Day) (r : RunRow) : Bool :=
  r.userId == uid && r.day == day

/-- POST `/api/weights` (`weights_add`): INSERT ... ON CONFLICT(user_id,
day) DO UPDATE SET weight_kg=excluded.weight_kg. If a row with the key
exists its weight is replaced, otherwise a new row is appended. -/
def weights_add (db : DB) (uid : Nat) (day : Day) (weight_kg : Rat) : DB :=
  if db.weights.any (weightKey uid day) then
    { db with weights :=
        db.weights.map (fun r =>
          if weightKey uid day r then { r with weightKg := weight_kg } else r) }
  else
    { db with weights := db.weights ++ [{ userId := uid, day := day, weightKg := weight_kg }] }

/-- POST `/api/runs` (`runs_add`): INSERT ... ON CONFLICT(user_id, day)
DO UPDATE SET distance_km=excluded.distance_km,
duration_min=excluded.duration_min. -/
def runs_add (db : DB) (uid : Nat) (day : Day) (distance_km duration_min : Rat) : DB :=
  if db.runs.any (runKey uid day) then
    { db with runs :=
        db.runs.map (fun r =>
          if runKey uid day r then
            { r with distanceKm := distance_km, durationMin := duration_min }
          else r) }
  else
    { db with runs := db.runs ++
        [{ userId := uid, day := day, distanceKm := distance_km, durationMin := duration_min }] }

/-- Reading back the weight stored for a (user, day): the weight of the
first row matching the key, as any SELECT by the unique key would return. -/
def lookupWeight (db : DB) (uid : Nat) (day : Day) : Option Rat :=
  (db.weights.find? (weightKey uid day)).map (fun r => r.weightKg)

/-- Reading back the run stored for a (user, day). -/
def lookupRun (db : DB) (uid : Nat) (day : Day) : Option (Rat × Rat) :=
  (db.runs.find? (runKey uid day)).map (fun r => (r.distanceKm, r.durationMin))

/-- The schema invariant UNIQUE(user_id, day) on the weights table: no two
rows share their (user, day) key. -/
def weightsUnique (l : List WeightRow) : Prop :=
  l.Pairwise (fun a b => ¬(a.userId = b.userId ∧ a.day = b.day))

/-- The schema invariant UNIQUE(user_id, day) on the runs table. -/
def runsUnique (l : List RunRow) : Prop :=
  l.Pairwise (fun a b => ¬(a.userId = b.userId ∧ a.day = b.day))

instance (l : List WeightRow) : Decidable (weightsUnique l) := by
  unfold weightsUnique; infer_instance

instance (l : List RunRow) : Decidable (runsUnique l) := by
  unfold runsUnique; infer_instance

/-- The optional inclusive date-range filter of the list endpoints:
`day >= start` is added only when a start bound is supplied, `day <= end`
only when an end bound is supplied. -/
def inRange (startB endB : Option Day) (d : Day) : Bool :=
  (match startB with | none => true | some s => decide (s ≤ d)) &&
  (match endB with | none => true | some e => decide (d ≤ e))

/-- GET `/api/weights` (`weights_list`): SELECT * FROM weights WHERE
user_id=? [AND day >= ?] [AND day <= ?] ORDER BY day DESC. -/
def weights_list (db : DB) (uid : Nat) (startB endB : Option Day) : List WeightRow :=
  (db.weights.filter (fun r => r.userId == uid && inRange startB endB r.day)).mergeSort
    (fun a b => decide (b.day ≤ a.day))

/-- GET `/api/runs` (`runs_list`): SELECT * FROM runs WHERE user_id=?
[AND day >= ?] [AND day <= ?] ORDER BY day DESC. -/
def runs_list (db : DB) (uid : Nat) (startB endB : Option Day) : List RunRow :=
  (db.runs.filter (fun r => r.userId == uid && inRange startB endB r.day)).mergeSort
    (fun a b => decide (b.day ≤ a.day))

/-- The days on which the given user has a weight entry (the set queried
by the streak loop's `SELECT 1 FROM weights WHERE user_id=? AND day=?`). -/
def weightDays (db : DB) (uid : Nat) : List Day :=
  (db.weights.filter (fun r => r.userId == uid)).map (fun r => r.day)

/-- The days on which the given user has a run entry. -/
def runDays (db : DB) (uid : Nat) : List Day :=
  (db.runs.filter (fun r => r.userId == uid)).map (fun r => r.day)

/-- One step per unit of fuel of the `while True` loop in
`summary.streak`: starting at day `d`, count down while every day has an
entry. Fuel is given separately because Lean requires a termination
measure; `streak` supplies fuel that is provably never exhausted. -/
def streakAux (days : List Day) (d : Day) : Nat → Nat
  | 0 => 0
  | fuel + 1 => if d ∈ days then streakAux days (d - 1) fuel + 1 else 0

/-- Model of `summary.streak(table)`: walk backward from `today`, counting
consecutive days with an entry, stopping at the first missing day. The
loop in the code terminates because the table is finite; here the fuel
`days.length` is enough, as the walk visits pairwise distinct days. -/
def streak (days : List Day) (today : Day) : Nat :=
  streakAux days today days.length

/-- The aggregate `SUM(distance_km)` as SQLite computes it: NULL (none) over an empty
row set, the sum otherwise. -/
def sqlSum (l : List Rat) : Option Rat :=
  if l.isEmpty then none else some l.sum

/-- The JSON payload of GET `/api/summary`. -/
structure Summary where
  latest_weight : Option Rat
  latest_weight_day : Option Day
  delta_to_target : Option Rat
  daily_run_goal_km : Rat
  run_7d_km : Rat
  weigh_streak : Nat
  run_streak : Nat
deriving Repr, DecidableEq

/-- GET `/api/summary`: latest weight row by descending day (LIMIT 1),
delta to the user's target weight, the 7-day run total
(`SUM(distance_km) WHERE user_id=? AND day >= today-6`, with
`float(km or 0.0)` turning NULL into 0), and the two streaks. `user` is
the authenticated user's row and `today` the server's current date. -/
def summary (db : DB) (user : User) (today : Day) : Summary :=
  let w := ((db.weights.filter (fun r => r.userId == user.id)).mergeSort
    (fun a b => decide (b.day ≤ a.day))).head?
  let latest_weight := w.map (fun r => r.weightKg)
  let latest_weight_day := w.map (fun r => r.day)
  let delta_to_target := latest_weight.map (fun lw => lw - user.targetWeight)
  let start7 : Day := today - 6
  let r7 := sqlSum
    (((db.runs.filter (fun r => r.userId == user.id && decide (start7 ≤ r.day)))).map
      (fun r => r.distanceKm))
  { latest_weight := latest_weight,
    latest_weight_day := latest_weight_day,
    delta_to_target := delta_to_target,
    daily_run_goal_km := user.dailyRunKm,
    run_7d_km := r7.getD 0,
    weigh_streak := streak (weightDays db user.id) today,
    run_streak := streak (runDays db user.id) today }

/-- The spec's reading of the streak value: days `today, today-1, ...,
today-(n-1)` all have an entry and day `today-n` does not — "count of
consecutive calendar days, walking backward from today, stopping at the
first missing day". -/
def IsBackwardStreak (days : List Day) (today : Day) (n : Nat) : Prop :=
  (∀ k : Nat, k < n → (today - (k : Int)) ∈ days) ∧ (today - (n : Int)) ∉ days

instance (days : List Day) (today : Day) (n : Nat) :
    Decidable (IsBackwardStreak days today n) := by
  unfold IsBackwardStreak; infer_instance

/-- The spec's reading of the 7-day total, written as a single pass over
the whole runs table: each row contributes its distance when it belongs to
the user and lies in the inclusive window, and 0 otherwise. -/
def run7dSpec (db : DB) (uid : Nat) (today : Day) : Rat :=
  (db.runs.map (fun r =>
    if r.userId = uid ∧ today - 6 ≤ r.day then r.distanceKm else 0)).sum

/-! ### Streak lemmas -/

theorem streakAux_le (days : List Day) (d : Day) (fuel : Nat) :
    streakAux days d fuel ≤ fuel := by
  induction fuel generalizing d with
  | zero => simp [streakAux]
  | succ n ih =>
      simp only [streakAux]
      split
      · exact Nat.succ_le_succ (ih (d - 1))
      · exact Nat.zero_le _

theorem streakAux_mem (days : List Day) (d : Day) (fuel : Nat) :
    ∀ k : Nat, k < streakAux days d fuel → (d - (k : Int)) ∈ days := by
  induction fuel generalizing d with
  | zero => simp [streakAux]
  | succ n ih =>
      intro k hk
      simp only [streakAux] at hk
      split at hk
      · match k with
        | 0 => simpa using ‹d ∈ days›
        | j + 1 =>
            have hj : j < streakAux days (d - 1) n := Nat.lt_of_succ_lt_succ hk
            have := ih (d - 1) j hj
            have heq : d - ((j : Int) + 1) = d - 1 - (j : Int) := by ring
            push_cast
            rw [heq]
            exact this
      · omega

theorem streakAux_stop (days : List Day) (d : Day) (fuel : Nat)
    (h : streakAux days d fuel < fuel) :
    (d - (streakAux days d fuel : Int)) ∉ days := by
  induction fuel generalizing d with
  | zero => omega
  | succ n ih =>
      simp only [streakAux] at h ⊢
      split at h
      · rename_i hmem
        simp only [if_pos hmem]
        have hlt : streakAux days (d - 1) n < n := Nat.lt_of_succ_lt_succ h
        have := ih (d - 1) hlt
        have heq : d - ((streakAux days (d - 1) n : Int) + 1)
            = d - 1 - (streakAux days (d - 1) n : Int) := by ring
        push_cast
        rw [heq]
        exact this
      · rename_i hmem
        simp only [if_neg hmem]
        simpa using hmem

theorem streak_mem (days : List Day) (today : Day) :
    ∀ k : Nat, k < streak days today → (today - (k : Int)) ∈ days :=
  streakAux_mem days today days.length

theorem streak_stop (days : List Day) (today : Day) :
    (today - (streak days today : Int)) ∉ days := by
  by_cases hlt : streak days today < days.length
  · exact streakAux_stop days today days.length hlt
  · have hle := streakAux_le days today days.length
    have heq : streak days today = days.length := by
      unfold streak at *; omega
    intro hmem
    -- days would contain the (length + 1) pairwise distinct values
    -- today, today - 1, ..., today - length: impossible for a list of
    -- that length.
    have hall : ∀ k : Nat, k < days.length + 1 → (today - (k : Int)) ∈ days := by
      intro k hk
      rcases Nat.lt_or_ge k days.length with hk2 | hk2
      · have := streak_mem days today k (by rw [heq]; exact hk2)
        exact this
      · have hkl : k = days.length := by omega
        subst hkl
        rw [← heq]
        exact hmem
    have hinj : Set.InjOn (fun k : Nat => today - (k : Int))
        (Finset.range (days.length + 1)) := by
      intro a _ b _ hab
      have hab2 : today - (a : Int) = today - (b : Int) := hab
      have h3 : (a : Int) = (b : Int) := by linarith
      exact_mod_cast h3
    have hmaps : ∀ k ∈ Finset.range (days.length + 1),
        (fun k : Nat => today - (k : Int)) k ∈ days.toFinset := by
      intro k hk
      simp only [Finset.mem_range] at hk
      exact List.mem_toFinset.2 (hall k hk)
    have hcard := Finset.card_le_card_of_injOn _ hmaps hinj
    simp only [Finset.card_range] at hcard
    have := days.toFinset_card_le
    omega

theorem streak_isBackwardStreak (days : List Day) (today : Day) :
    IsBackwardStreak days today (streak days today) :=
  ⟨streak_mem days today, streak_stop days today⟩

theorem isBackwardStreak_unique (days : List Day) (today : Day) (n m : Nat)
    (hn : IsBackwardStreak days today n) (hm : IsBackwardStreak days today m) :
    n = m := by
  rcases hn with ⟨hn1, hn2⟩
  rcases hm with ⟨hm1, hm2⟩
  rcases Nat.lt_trichotomy n m with h | h | h
  · exact absurd (hm1 n h) hn2
  · exact h
  · exact absurd (hn1 m h) hm2

theorem streak_eq_of_isBackwardStreak (days : List Day) (today : Day) (n : Nat)
    (h : IsBackwardStreak days today n) : streak days today = n :=
  isBackwardStreak_unique days today _ n (streak_isBackwardStreak days today) h

/-! ### Sum lemmas for the 7-day window -/

theorem sqlSum_getD (l : List Rat) : (sqlSum l).getD 0 = l.sum := by
  unfold sqlSum
  split
  · rename_i h
    rw [List.isEmpty_iff.mp h]
    simp
  · simp

theorem filterSum_eq_run7dSpec (uid : Nat) (t : Day) :
    ∀ l : List RunRow,
      ((l.filter (fun r => r.userId == uid && decide (t - 6 ≤ r.day))).map
         (fun r => r.distanceKm)).sum
        = (l.map (fun r => if r.userId = uid ∧ t - 6 ≤ r.day then r.distanceKm else 0)).sum
  | [] => by simp
  | r :: l => by
      have hrec := filterSum_eq_run7dSpec uid t l
      simp only [List.filter_cons, List.map_cons, List.sum_cons]
      split
      · rename_i hb
        have h : r.userId = uid ∧ t - 6 ≤ r.day := by
          rw [Bool.and_eq_true, beq_iff_eq, decide_eq_true_eq] at hb
          exact hb
        rw [List.map_cons, List.sum_cons, if_pos h, hrec]
      · rename_i hb
        have h : ¬(r.userId = uid ∧ t - 6 ≤ r.day) := by
          intro hc
          exact hb (by rw [Bool.and_eq_true, beq_iff_eq, decide_eq_true_eq]; exact hc)
        rw [if_neg h, hrec, zero_add]

theorem summary_run_7d_km (db : DB) (user : User) (today : Day) :
    (summary db user today).run_7d_km = run7dSpec db user.id today := by
  show (sqlSum _).getD 0 = _
  rw [sqlSum_getD]
  exact filterSum_eq_run7dSpec user.id today db.runs

theorem run7d_zero_of_out_of_range (db : DB) (user : User) (today : Day)
    (h : ∀ r ∈ db.runs, r.userId = user.id → r.day < today - 6) :
    (summary db user today).run_7d_km = 0 := by
  rw [summary_run_7d_km db user today]
  unfold run7dSpec
  apply List.sum_eq_zero
  intro x hx
  rw [List.mem_map] at hx
  obtain ⟨r, hr, hrx⟩ := hx
  rw [← hrx]
  rw [if_neg]
  rintro ⟨h1, h2⟩
  exact absurd h2 (not_le.mpr (h r hr h1))

/-! ### Upsert lemmas -/

theorem weightKey_iff (uid : Nat) (day : Day) (r : WeightRow) :
    weightKey uid day r = true ↔ r.userId = uid ∧ r.day = day := by
  unfold weightKey
  rw [Bool.and_eq_true, beq_iff_eq, beq_iff_eq]

theorem runKey_iff (uid : Nat) (day : Day) (r : RunRow) :
    runKey uid day r = true ↔ r.userId = uid ∧ r.day = day := by
  unfold runKey
  rw [Bool.and_eq_true, beq_iff_eq, beq_iff_eq]

theorem find?_map_updateW (uid : Nat) (day : Day) (v : Rat) :
    ∀ l : List WeightRow, l.any (weightKey uid day) = true →
      (l.map (fun r => if weightKey uid day r then { r with weightKg := v } else r)).find?
          (weightKey uid day)
        = some { userId := uid, day := day, weightKg := v }
  | [] => by simp
  | r :: l => by
      intro hany
      rw [List.map_cons]
      by_cases hk : weightKey uid day r = true
      · rw [if_pos hk]
        have hk2 : weightKey uid day { r with weightKg := v } = true := hk
        rw [List.find?_cons_of_pos _ hk2]
        obtain ⟨h1, h2⟩ := (weightKey_iff uid day r).mp hk
        simp [h1, h2]
      · rw [if_neg hk, List.find?_cons_of_neg _ (by simpa using hk)]
        apply find?_map_updateW uid day v l
        rcases List.any_eq_true.mp hany with ⟨x, hx, hpx⟩
        rcases List.mem_cons.mp hx with hxr | hxl
        · exact absurd (hxr ▸ hpx) (by simpa using hk)
        · exact List.any_eq_true.mpr ⟨x, hxl, hpx⟩

theorem find?_map_updateR (uid : Nat) (day : Day) (dv du : Rat) :
    ∀ l : List RunRow, l.any (runKey uid day) = true →
      (l.map (fun r =>
          if runKey uid day r then { r with distanceKm := dv, durationMin := du } else r)).find?
          (runKey uid day)
        = some { userId := uid, day := day, distanceKm := dv, durationMin := du }
  | [] => by simp
  | r :: l => by
      intro hany
      rw [List.map_cons]
      by_cases hk : runKey uid day r = true
      · rw [if_pos hk]
        have hk2 : runKey uid day { r with distanceKm := dv, durationMin := du } = true := hk
        rw [List.find?_cons_of_pos _ hk2]
        obtain ⟨h1, h2⟩ := (runKey_iff uid day r).mp hk
        simp [h1, h2]
      · rw [if_neg hk, List.find?_cons_of_neg _ (by simpa using hk)]
        apply find?_map_updateR uid day dv du l
        rcases List.any_eq_true.mp hany with ⟨x, hx, hpx⟩
        rcases List.mem_cons.mp hx with hxr | hxl
        · exact absurd (hxr ▸ hpx) (by simpa using hk)
        · exact List.any_eq_true.mpr ⟨x, hxl, hpx⟩

theorem find?_weights_add (db : DB) (uid : Nat) (day : Day) (v : Rat) :
    (weights_add db uid day v).weights.find? (weightKey uid day)
      = some { userId := uid, day := day, weightKg := v } := by
  unfold weights_add
  by_cases hany : db.weights.any (weightKey uid day) = true
  · rw [if_pos hany]
    exact find?_map_updateW uid day v db.weights hany
  · rw [if_neg hany]
    show (db.weights ++ _).find? _ = _
    rw [List.find?_append]
    have hnone : db.weights.find? (weightKey uid day) = none := by
      rw [List.find?_eq_none]
      intro x hx
      simp only [Bool.not_eq_true] at hany ⊢
      simpa using List.any_eq_false.mp hany x hx
    rw [hnone]
    have hnew : weightKey uid day { userId := uid, day := day, weightKg := v } = true := by
      rw [weightKey_iff]
      exact ⟨rfl, rfl⟩
    rw [List.find?_cons_of_pos _ hnew]
    rfl

theorem find?_runs_add (db : DB) (uid : Nat) (day : Day) (dv du : Rat) :
    (runs_add db uid day dv du).runs.find? (runKey uid day)
      = some { userId := uid, day := day, distanceKm := dv, durationMin := du } := by
  unfold runs_add
  by_cases hany : db.runs.any (runKey uid day) = true
  · rw [if_pos hany]
    exact find?_map_updateR uid day dv du db.runs hany
  · rw [if_neg hany]
    show (db.runs ++ _).find? _ = _
    rw [List.find?_append]
    have hnone : db.runs.find? (runKey uid day) = none := by
      rw [List.find?_eq_none]
      intro x hx
      simp only [Bool.not_eq_true] at hany ⊢
      simpa using List.any_eq_false.mp hany x hx
    rw [hnone]
    have hnew : runKey uid day
        { userId := uid, day := day, distanceKm := dv, durationMin := du } = true := by
      rw [runKey_iff]
      exact ⟨rfl, rfl⟩
    rw [List.find?_cons_of_pos _ hnew]
    rfl

theorem weightsUnique_weights_add (db : DB) (uid : Nat) (day : Day) (v : Rat)
    (h : weightsUnique db.weights) : weightsUnique (weights_add db uid day v).weights := by
  unfold weights_add weightsUnique
  by_cases hany : db.weights.any (weightKey uid day) = true
  · rw [if_pos hany]
    show List.Pairwise _ (db.weights.map _)
    rw [List.pairwise_map]
    refine h.imp ?_
    intro a b hab
    have ha : ∀ r : WeightRow,
        (if weightKey uid day r then { r with weightKg := v } else r).userId = r.userId
        ∧ (if weightKey uid day r then { r with weightKg := v } else r).day = r.day := by
      intro r
      split <;> exact ⟨rfl, rfl⟩
    rw [(ha a).1, (ha a).2, (ha b).1, (ha b).2]
    exact hab
  · rw [if_neg hany]
    show List.Pairwise _ (db.weights ++ _)
    rw [List.pairwise_append]
    refine ⟨h, List.pairwise_singleton _ _, ?_⟩
    intro a ha b hb
    rcases List.mem_singleton.mp hb with rfl
    rintro ⟨h1, h2⟩
    have : weightKey uid day a = true := by
      rw [weightKey_iff]
      exact ⟨h1, h2⟩
    simp only [Bool.not_eq_true] at hany
    exact absurd this (by simpa using List.any_eq_false.mp hany a ha)

theorem runsUnique_runs_add (db : DB) (uid : Nat) (day : Day) (dv du : Rat)
    (h : runsUnique db.runs) : runsUnique (runs_add db uid day dv du).runs := by
  unfold runs_add runsUnique
  by_cases hany : db.runs.any (runKey uid day) = true
  · rw [if_pos hany]
    show List.Pairwise _ (db.runs.map _)
    rw [List.pairwise_map]
    refine h.imp ?_
    intro a b hab
    have ha : ∀ r : RunRow,
        (if runKey uid day r then { r with distanceKm := dv, durationMin := du } else r).userId
          = r.userId
        ∧ (if runKey uid day r then { r with distanceKm := dv, durationMin := du } else r).day
          = r.day := by
      intro r
      split <;> exact ⟨rfl, rfl⟩
    rw [(ha a).1, (ha a).2, (ha b).1, (ha b).2]
    exact hab
  · rw [if_neg hany]
    show List.Pairwise _ (db.runs ++ _)
    rw [List.pairwise_append]
    refine ⟨h, List.pairwise_singleton _ _, ?_⟩
    intro a ha b hb
    rcases List.mem_singleton.mp hb with rfl
    rintro ⟨h1, h2⟩
    have : runKey uid day a = true := by
      rw [runKey_iff]
      exact ⟨h1, h2⟩
    simp only [Bool.not_eq_true] at hany
    exact absurd this (by simpa using List.any_eq_false.mp hany a ha)

/-! ### Sorting and range lemmas for the list endpoints -/

theorem sorted_mergeSort_day {α : Type} (dayOf : α → Day) (l : List α) :
    (l.mergeSort (fun a b => decide (dayOf b ≤ dayOf a))).Pairwise
      (fun a b => dayOf b ≤ dayOf a) := by
  refine (List.sorted_mergeSort ?_ ?_ l).imp ?_
  · intro a b c hab hbc
    simp only [decide_eq_true_eq] at *
    exact le_trans hbc hab
  · intro a b
    rcases le_total (dayOf b) (dayOf a) with h | h
    · simp [h]
    · simp [h]
  · intro a b hab
    simpa using hab

theorem inRange_iff (startB endB : Option Day) (d : Day) :
    inRange startB endB d = true ↔
      (∀ s, startB = some s → s ≤ d) ∧ (∀ e, endB = some e → d ≤ e) := by
  unfold inRange
  rcases startB with _ | s <;> rcases endB with _ | e <;> simp

/-! ### Example data used by witnesses and counterexamples -/

/-- A concrete PBKDF2 primitive used only to instantiate witnesses. -/
def pbC : Pbkdf2 := fun _ password _ _ => password

/-- The database right after `init_db` on a fresh file. -/
def emptyDB : DB := { users := [], weights := [], runs := [] }

/-- A concrete user row. -/
def exUser : User :=
  { id := 1, username := "alice", passwordHash := "h", targetWeight := 80,
    dailyRunKm := 10, weighTime := "08:00", runTime := "18:00" }

/-- Weights on days 0 and -1 (today and yesterday, with today = 0), a run
yesterday only. -/
def exDB1 : DB :=
  { users := [exUser],
    weights := [{ userId := 1, day := 0, weightKg := 70 },
                { userId := 1, day := -1, weightKg := 71 }],
    runs := [{ userId := 1, day := -1, distanceKm := 4, durationMin := 30 }] }

/-- Runs on days 0, -3 and -8 with distances 5, 3 and 10. -/
def exDB2 : DB :=
  { users := [exUser],
    weights := [],
    runs := [{ userId := 1, day := 0, distanceKm := 5, durationMin := 30 },
             { userId := 1, day := -3, distanceKm := 3, durationMin := 25 },
             { userId := 1, day := -8, distanceKm := 10, durationMin := 60 }] }

/-- A single run nine days ago: outside the 7-day window for today = 0. -/
def exDB3 : DB :=
  { users := [exUser],
    weights := [],
    runs := [{ userId := 1, day := -9, distanceKm := 7, durationMin := 50 }] }

/-! ### Claim theorems -/

/-- C1: weigh_streak and run_streak returned by the summary operation are
exactly the backward streaks: the days today, today-1, ..., today-(s-1)
all carry an entry of the respective kind, day today-s does not, and the
streak is the unique number with that property (so it stops at the first
missing day); in particular a missing entry for today forces streak 0. -/
theorem claim_C1 (db : DB) (user : User) (today : Day) :
    IsBackwardStreak (weightDays db user.id) today (summary db user today).weigh_streak
    ∧ IsBackwardStreak (runDays db user.id) today (summary db user today).run_streak
    ∧ (∀ n : Nat, IsBackwardStreak (weightDays db user.id) today n →
        (summary db user today).weigh_streak = n)
    ∧ (∀ n : Nat, IsBackwardStreak (runDays db user.id) today n →
        (summary db user today).run_streak = n)
    ∧ (today ∉ weightDays db user.id → (summary db user today).weigh_streak = 0)
    ∧ (today ∉ runDays db user.id → (summary db user today).run_streak = 0) := by
  have hw : (summary db user today).weigh_streak = streak (weightDays db user.id) today := rfl
  have hr : (summary db user today).run_streak = streak (runDays db user.id) today := rfl
  rw [hw, hr]
  refine ⟨streak_isBackwardStreak _ _, streak_isBackwardStreak _ _,
    fun n h => streak_eq_of_isBackwardStreak _ _ n h,
    fun n h => streak_eq_of_isBackwardStreak _ _ n h, ?_, ?_⟩
  · intro h
    refine streak_eq_of_isBackwardStreak _ _ 0 ⟨by omega, ?_⟩
    simpa using h
  · intro h
    refine streak_eq_of_isBackwardStreak _ _ 0 ⟨by omega, ?_⟩
    simpa using h

/-- Witness for C1, instantiating the spec's streak tests: weight entries
on {today, today-1} with today-2 missing give weigh_streak 2; a run entry
on today-1 only gives run_streak 0. -/
theorem claim_C1_witness :
    (summary exDB1 exUser 0).weigh_streak = 2 ∧ (summary exDB1 exUser 0).run_streak = 0 := by
  constructor
  · exact (claim_C1 exDB1 exUser 0).2.2.1 2 (by decide)
  · exact (claim_C1 exDB1 exUser 0).2.2.2.2.2 (by decide)

/-- C2: run_7d_km of the summary equals the sum of distance over the
user's run entries with day ≥ today - 6 (each run row contributes its
distance exactly when it belongs to the user and falls in the inclusive
trailing window), and is 0 when no entry of the user falls in range. -/
theorem claim_C2 (db : DB) (user : User) (today : Day) :
    (summary db user today).run_7d_km = run7dSpec db user.id today
    ∧ ((∀ r ∈ db.runs, r.userId = user.id → r.day < today - 6) →
        (summary db user today).run_7d_km = 0) := by
  exact ⟨summary_run_7d_km db user today, run7d_zero_of_out_of_range db user today⟩

/-- Witness for C2, instantiating the spec's example: runs on days
{today, today-3, today-8} with distances {5, 3, 10} give run_7d_km = 8,
and a lone run on today-9 gives run_7d_km = 0. -/
theorem claim_C2_witness :
    (summary exDB2 exUser 0).run_7d_km = 8 ∧ (summary exDB3 exUser 0).run_7d_km = 0 := by
  constructor
  · rw [(claim_C2 exDB2 exUser 0).1]
    norm_num [run7dSpec, exDB2, exUser]
  · exact (claim_C2 exDB3 exUser 0).2 (by decide)

/-- C4: the profile update is a full replace: each of the four goal
fields of the returned row equals the supplied value when present and the
fixed default when omitted, independently of the stored profile; and a
second update erases everything the first wrote (no retention across
repeated partial updates). -/
theorem claim_C4 (u : User) (data : ProfileUpdate) :
    ((me_update u data).targetWeight = data.target_weight.getD defaultTargetWeight
     ∧ (me_update u data).dailyRunKm = data.daily_run_km.getD defaultDailyRunKm
     ∧ (me_update u data).weighTime = data.weigh_time.getD defaultWeighTime
     ∧ (me_update u data).runTime = data.run_time.getD defaultRunTime)
    ∧ (∀ data2 : ProfileUpdate, me_update (me_update u data) data2 = me_update u data2) := by
  exact ⟨⟨rfl, rfl, rfl, rfl⟩, fun _ => rfl⟩

/-- C10: password verification round-trips — verifying a password against
its own stored hash succeeds, because `compare_digest` is digest equality
and the hash is a deterministic function of the password alone (the salt
and iteration count are fixed); hence equal passwords hash equally. This
holds for every choice of the external PBKDF2 primitive. -/
theorem claim_C10 (pbkdf2 : Pbkdf2) (p : String) :
    verify_password pbkdf2 p (hash_password pbkdf2 p) = true
    ∧ ∀ q : String, p = q → hash_password pbkdf2 p = hash_password pbkdf2 q := by
  constructor
  · simp [verify_password, compare_digest]
  · intro q h
    rw [h]

/-- Witness for C10 at a concrete primitive and password. -/
theorem claim_C10_witness :
    verify_password (fun h p s n => h ++ p ++ s ++ toString n) "pw"
      (hash_password (fun h p s n => h ++ p ++ s ++ toString n) "pw") = true
    ∧ hash_password (fun h p s n => h ++ p ++ s ++ toString n) "pw"
      = hash_password (fun h p s n => h ++ p ++ s ++ toString n) "pw" := by
  exact ⟨(claim_C10 (fun h p s n => h ++ p ++ s ++ toString n) "pw").1,
    (claim_C10 (fun h p s n => h ++ p ++ s ++ toString n) "pw").2 "pw" rfl⟩

/-- C3: from a state satisfying the UNIQUE(user_id, day) invariant,
upserting twice for the same (user, day) with different values is a total
operation (never an error), a subsequent read returns only the latest
value, and the uniqueness invariant still holds afterwards — for weights
and for runs alike. -/
theorem claim_C3 (db : DB) (uid : Nat) (day : Day) (v1 v2 d1 du1 d2 du2 : Rat)
    (hw : weightsUnique db.weights) (hr : runsUnique db.runs) :
    (lookupWeight (weights_add (weights_add db uid day v1) uid day v2) uid day = some v2
     ∧ weightsUnique (weights_add (weights_add db uid day v1) uid day v2).weights)
    ∧ (lookupRun (runs_add (runs_add db uid day d1 du1) uid day d2 du2) uid day
          = some (d2, du2)
     ∧ runsUnique (runs_add (runs_add db uid day d1 du1) uid day d2 du2).runs) := by
  refine ⟨⟨?_, ?_⟩, ?_, ?_⟩
  · unfold lookupWeight
    rw [find?_weights_add]
    rfl
  · exact weightsUnique_weights_add _ _ _ _ (weightsUnique_weights_add _ _ _ _ hw)
  · unfold lookupRun
    rw [find?_runs_add]
    rfl
  · exact runsUnique_runs_add _ _ _ _ _ (runsUnique_runs_add _ _ _ _ _ hr)

/-- Witness for C3 on a concrete database: writing 60 then 61 for the same
day reads back 61; writing (3, 20) then (4, 25) reads back (4, 25). -/
theorem claim_C3_witness :
    lookupWeight (weights_add (weights_add exDB1 1 5 60) 1 5 61) 1 5 = some 61
    ∧ lookupRun (runs_add (runs_add exDB1 1 5 3 20) 1 5 4 25) 1 5 = some (4, 25) := by
  have h := claim_C3 exDB1 1 5 60 61 3 20 4 25 (by decide) (by decide)
  exact ⟨h.1.1, h.2.1⟩

/-- Counterexample to C5 as stated: the user of exDB2 has zero weight
entries, yet run_7d_km of the summary is 8 (a run entry today lies in the
window), not 0; so "for every user with zero weight entries ... run_7d_km
is 0" fails. -/
theorem claim_C5_counterexample :
    exDB2.weights = [] ∧ (summary exDB2 exUser 0).run_7d_km ≠ 0 := by
  refine ⟨rfl, ?_⟩
  rw [summary_run_7d_km]
  norm_num [run7dSpec, exDB2, exUser]

/-- C5 (amended): for a user with zero weight entries, latest_weight,
latest_weight_day and delta_to_target are all null; run_7d_km is never
null, and it is 0 when the user has no run entry in the 7-day window (in
particular for a user with no entries at all) — zero weight entries alone
do not force it to 0; and when at least one weight entry exists,
latest_weight/latest_weight_day come from a most recent WeightEntry by day
and delta_to_target is latest_weight minus target_weight. -/
theorem claim_C5 (db : DB) (user : User) (today : Day) :
    (db.weights.filter (fun r => r.userId == user.id) = [] →
      (summary db user today).latest_weight = none
      ∧ (summary db user today).latest_weight_day = none
      ∧ (summary db user today).delta_to_target = none)
    ∧ ((∀ r ∈ db.runs, r.userId = user.id → r.day < today - 6) →
        (summary db user today).run_7d_km = 0)
    ∧ (db.weights.filter (fun r => r.userId == user.id) ≠ [] →
        ∃ w : WeightRow, w ∈ db.weights ∧ w.userId = user.id
          ∧ (summary db user today).latest_weight = some w.weightKg
          ∧ (summary db user today).latest_weight_day = some w.day
          ∧ (summary db user today).delta_to_target
              = some (w.weightKg - user.targetWeight)
          ∧ ∀ w2 ∈ db.weights, w2.userId = user.id → w2.day ≤ w.day) := by
  have hperm := List.mergeSort_perm (db.weights.filter (fun r => r.userId == user.id))
    (fun a b => decide (b.day ≤ a.day))
  have hsorted := sorted_mergeSort_day (fun r : WeightRow => r.day)
    (db.weights.filter (fun r => r.userId == user.id))
  refine ⟨?_, ?_, ?_⟩
  · intro hw
    have h1 : (summary db user today).latest_weight
        = (((db.weights.filter (fun r => r.userId == user.id)).mergeSort
            (fun a b => decide (b.day ≤ a.day))).head?).map (fun r => r.weightKg) := rfl
    have h2 : (summary db user today).latest_weight_day
        = (((db.weights.filter (fun r => r.userId == user.id)).mergeSort
            (fun a b => decide (b.day ≤ a.day))).head?).map (fun r => r.day) := rfl
    have h3 : (summary db user today).delta_to_target
        = ((((db.weights.filter (fun r => r.userId == user.id)).mergeSort
            (fun a b => decide (b.day ≤ a.day))).head?).map (fun r => r.weightKg)).map
            (fun lw => lw - user.targetWeight) := rfl
    rw [h1, h2, h3, hw]
    simp
  · exact run7d_zero_of_out_of_range db user today
  · intro hne
    cases hL : (db.weights.filter (fun r => r.userId == user.id)).mergeSort
        (fun a b => decide (b.day ≤ a.day)) with
    | nil =>
        rw [hL] at hperm
        exact absurd (hperm.nil_eq.symm) hne
    | cons a tl =>
        rw [hL] at hperm hsorted
        have hamem : a ∈ db.weights.filter (fun r => r.userId == user.id) :=
          hperm.mem_iff.mp (List.mem_cons_self a tl)
        rw [List.mem_filter] at hamem
        refine ⟨a, hamem.1, by simpa using hamem.2, ?_, ?_, ?_, ?_⟩
        · show (((db.weights.filter (fun r => r.userId == user.id)).mergeSort
            (fun a b => decide (b.day ≤ a.day))).head?).map (fun r => r.weightKg) = _
          rw [hL]
          rfl
        · show (((db.weights.filter (fun r => r.userId == user.id)).mergeSort
            (fun a b => decide (b.day ≤ a.day))).head?).map (fun r => r.day) = _
          rw [hL]
          rfl
        · show ((((db.weights.filter (fun r => r.userId == user.id)).mergeSort
            (fun a b => decide (b.day ≤ a.day))).head?).map (fun r => r.weightKg)).map
              (fun lw => lw - user.targetWeight) = _
          rw [hL]
          rfl
        · intro w2 hw2 huid
          have hw2f : w2 ∈ db.weights.filter (fun r => r.userId == user.id) := by
            rw [List.mem_filter]
            exact ⟨hw2, by simpa using huid⟩
          have : w2 ∈ a :: tl := hperm.mem_iff.mpr hw2f
          rcases List.mem_cons.mp this with rfl | htl
          · exact le_refl _
          · exact (List.pairwise_cons.mp hsorted).1 w2 htl

/-- Witness for C5 on a fresh-looking user: exDB3 has no weight entries
and its only run is outside the window, so the three weight-derived fields
are null and run_7d_km is 0. -/
theorem claim_C5_witness :
    (summary exDB3 exUser 0).latest_weight = none
    ∧ (summary exDB3 exUser 0).latest_weight_day = none
    ∧ (summary exDB3 exUser 0).delta_to_target = none
    ∧ (summary exDB3 exUser 0).run_7d_km = 0 := by
  have h := claim_C5 exDB3 exUser 0
  obtain ⟨h1, h2, h3⟩ := h.1 rfl
  exact ⟨h1, h2, h3, h.2.1 (by decide)⟩

/-- C6: register answers username_password_required when the (normalised)
username or the password is empty; username_taken when the username —
compared after strip/lowercase, hence case-insensitively — already exists;
on success it appends a user row with the default goal fields and the
password hash, and returns the token; and a second registration of the
same username (in any casing) after a successful one yields
username_taken. -/
theorem claim_C6 (pbkdf2 : Pbkdf2) (db : DB) (now newId : Nat) (u p : String) :
    (normUsername u = "" ∨ p = "" →
      register pbkdf2 db now newId u p = .error .usernamePasswordRequired)
    ∧ (normUsername u ≠ "" → p ≠ "" → (findUser db (normUsername u)).isSome →
      register pbkdf2 db now newId u p = .error .usernameTaken)
    ∧ (normUsername u ≠ "" → p ≠ "" → findUser db (normUsername u) = none →
      register pbkdf2 db now newId u p =
        .ok ({ db with users := db.users ++
                [{ id := newId, username := normUsername u,
                   passwordHash := hash_password pbkdf2 p,
                   targetWeight := defaultTargetWeight, dailyRunKm := defaultDailyRunKm,
                   weighTime := defaultWeighTime, runTime := defaultRunTime }] },
              create_token now newId (normUsername u)))
    ∧ (∀ (db2 : DB) (tok : Token) (u2 p2 : String) (now2 id2 : Nat),
        register pbkdf2 db now newId u p = .ok (db2, tok) →
        normUsername u2 = normUsername u → p2 ≠ "" →
        register pbkdf2 db2 now2 id2 u2 p2 = .error .usernameTaken) := by
  refine ⟨?_, ?_, ?_, ?_⟩
  · intro h
    unfold register
    rw [if_pos h]
  · intro h1 h2 h3
    unfold register
    rw [if_neg (by rintro (hc | hc) <;> [exact h1 hc; exact h2 hc]), if_pos h3]
  · intro h1 h2 h3
    unfold register
    rw [if_neg (by rintro (hc | hc) <;> [exact h1 hc; exact h2 hc]),
      if_neg (by rw [h3]; simp)]
  · intro db2 tok u2 p2 now2 id2 hok hnorm hp2
    unfold register at hok
    by_cases h1 : normUsername u = "" ∨ p = ""
    · rw [if_pos h1] at hok
      simp at hok
    · rw [if_neg h1] at hok
      by_cases h2 : (findUser db (normUsername u)).isSome
      · rw [if_pos h2] at hok
        simp at hok
      · rw [if_neg h2] at hok
        simp only [Except.ok.injEq, Prod.mk.injEq] at hok
        obtain ⟨hdb2, htok⟩ := hok
        push_neg at h1
        unfold register
        rw [if_neg (by rw [hnorm]; rintro (hc | hc) <;> [exact h1.1 hc; exact hp2 hc])]
        have hsome : (findUser db2 (normUsername u2)).isSome := by
          rw [hnorm, ← hdb2]
          unfold findUser
          rw [List.find?_isSome]
          refine ⟨{ id := newId, username := normUsername u,
                    passwordHash := hash_password pbkdf2 p,
                    targetWeight := defaultTargetWeight, dailyRunKm := defaultDailyRunKm,
                    weighTime := defaultWeighTime, runTime := defaultRunTime }, ?_, ?_⟩
          · exact List.mem_append_right _ (List.mem_singleton.mpr rfl)
          · exact beq_self_eq_true _
        rw [if_pos hsome]

/-- Witness for C6: on a fresh database, registering "Bob" succeeds and a
subsequent registration of "BOB" is rejected with username_taken. -/
theorem claim_C6_witness :
    register pbC
      { users := [{ id := 1, username := "bob", passwordHash := "pw",
                    targetWeight := 80, dailyRunKm := 10,
                    weighTime := "08:00", runTime := "18:00" }],
        weights := [], runs := [] } 7 2 "BOB" "pw2" = .error .usernameTaken := by
  refine (claim_C6 pbC emptyDB 0 1 "Bob" "pw").2.2.2
    { users := [{ id := 1, username := "bob", passwordHash := "pw",
                  targetWeight := 80, dailyRunKm := 10,
                  weighTime := "08:00", runTime := "18:00" }],
      weights := [], runs := [] }
    (create_token 0 1 "bob") "BOB" "pw2" 7 2 ?_ (by decide) (by decide)
  rfl

/-- C7: for a login attempt whose username (after strip/lowercase) and
password are non-empty, an unknown username and a wrong password produce
the same invalid_credentials error — the returned error code does not leak
whether the user exists. -/
theorem claim_C7 (pbkdf2 : Pbkdf2) (db : DB) (now : Nat) (u p : String)
    (hu : normUsername u ≠ "") (hp : p ≠ "") :
    (findUser db (normUsername u) = none →
      login pbkdf2 db now u p = .error .invalidCredentials)
    ∧ (∀ row : User, findUser db (normUsername u) = some row →
        verify_password pbkdf2 p row.passwordHash = false →
        login pbkdf2 db now u p = .error .invalidCredentials) := by
  unfold login
  rw [if_neg (by rintro (hc | hc) <;> [exact hu hc; exact hp hc])]
  constructor
  · intro h
    rw [h]
  · intro row h hv
    rw [h]
    show (if verify_password pbkdf2 p row.passwordHash = true then _ else _) = _
    rw [hv]
    simp

/-- Witness for C7: against exDB1 (user "alice" with stored hash "h" under
the primitive pbC), login as unknown "bob" and login as "alice" with the
wrong password "x" both give invalid_credentials. -/
theorem claim_C7_witness :
    login pbC exDB1 0 "bob" "x" = .error .invalidCredentials
    ∧ login pbC exDB1 0 "alice" "x" = .error .invalidCredentials := by
  constructor
  · exact (claim_C7 pbC exDB1 0 "bob" "x" (by decide) (by decide)).1 (by decide)
  · exact (claim_C7 pbC exDB1 0 "alice" "x" (by decide) (by decide)).2 exUser
      (by decide) (by decide)

/-- C8: each list endpoint returns exactly the signed-in user's rows that
pass the optional inclusive bounds — as a permutation of the filtered
table, with a membership characterisation — ordered by day descending. -/
theorem claim_C8 (db : DB) (uid : Nat) (startB endB : Option Day) :
    List.Perm (weights_list db uid startB endB)
        (db.weights.filter (fun r => r.userId == uid && inRange startB endB r.day))
    ∧ (∀ r : WeightRow, r ∈ weights_list db uid startB endB ↔
        r ∈ db.weights ∧ r.userId = uid
        ∧ (∀ s, startB = some s → s ≤ r.day) ∧ (∀ e, endB = some e → r.day ≤ e))
    ∧ (weights_list db uid startB endB).Pairwise (fun a b => b.day ≤ a.day)
    ∧ List.Perm (runs_list db uid startB endB)
        (db.runs.filter (fun r => r.userId == uid && inRange startB endB r.day))
    ∧ (∀ r : RunRow, r ∈ runs_list db uid startB endB ↔
        r ∈ db.runs ∧ r.userId = uid
        ∧ (∀ s, startB = some s → s ≤ r.day) ∧ (∀ e, endB = some e → r.day ≤ e))
    ∧ (runs_list db uid startB endB).Pairwise (fun a b => b.day ≤ a.day) := by
  refine ⟨List.mergeSort_perm _ _, ?_, sorted_mergeSort_day (fun r : WeightRow => r.day) _,
    List.mergeSort_perm _ _, ?_, sorted_mergeSort_day (fun r : RunRow => r.day) _⟩
  · intro r
    unfold weights_list
    rw [List.mem_mergeSort, List.mem_filter, Bool.and_eq_true, beq_iff_eq, inRange_iff]
  · intro r
    unfold runs_list
    rw [List.mem_mergeSort, List.mem_filter, Bool.and_eq_true, beq_iff_eq, inRange_iff]

/-- Witness for C8: with bounds [-1, 0] on exDB1, the weight entry of day
0 is listed and the run entry of day -1 is listed. -/
theorem claim_C8_witness :
    ({ userId := 1, day := 0, weightKg := 70 } : WeightRow)
        ∈ weights_list exDB1 1 (some (-1)) (some 0)
    ∧ ({ userId := 1, day := -1, distanceKm := 4, durationMin := 30 } : RunRow)
        ∈ runs_list exDB1 1 (some (-1)) (some 0) := by
  constructor
  · exact ((claim_C8 exDB1 1 (some (-1)) (some 0)).2.1 _).mpr
      ⟨by decide, rfl, fun s hs => by cases hs; decide, fun e he => by cases he; decide⟩
  · exact ((claim_C8 exDB1 1 (some (-1)) (some 0)).2.2.2.2.1 _).mpr
      ⟨by decide, rfl, fun s hs => by cases hs; decide, fun e he => by cases he; decide⟩

/-- C9 (implicit): the 7-day sum has no upper bound on the day, so a run
entry dated strictly after today adds its distance to run_7d_km, while
run_streak — which only inspects today and earlier days — is unchanged. -/
theorem claim_C9 (db : DB) (user : User) (today : Day) (e : RunRow)
    (hu : e.userId = user.id) (hd : today < e.day) :
    (summary { db with runs := e :: db.runs } user today).run_7d_km
        = e.distanceKm + (summary db user today).run_7d_km
    ∧ (summary { db with runs := e :: db.runs } user today).run_streak
        = (summary db user today).run_streak := by
  constructor
  · rw [summary_run_7d_km, summary_run_7d_km]
    show (List.map _ (e :: db.runs)).sum = _
    rw [List.map_cons, List.sum_cons,
      if_pos ⟨hu, by linarith [hd]⟩]
    rfl
  · have hdays : runDays { db with runs := e :: db.runs } user.id
        = e.day :: runDays db user.id := by
      unfold runDays
      show ((e :: db.runs).filter _).map _ = _
      rw [List.filter_cons_of_pos (by simpa using hu), List.map_cons]
    show streak (runDays { db with runs := e :: db.runs } user.id) today
        = streak (runDays db user.id) today
    rw [hdays]
    apply streak_eq_of_isBackwardStreak
    refine ⟨?_, ?_⟩
    · intro k hk
      exact List.mem_cons_of_mem _ (streak_mem _ today k hk)
    · intro hmem
      rcases List.mem_cons.mp hmem with heq | hmem2
      · have hle : today - ((streak (runDays db user.id) today : Nat) : Int) ≤ today :=
          sub_le_self _ (Int.natCast_nonneg _)
        rw [heq] at hle
        linarith [hd]
      · exact streak_stop _ today hmem2

/-- Witness for C9: adding a run of distance 5 dated tomorrow to exDB3
raises run_7d_km by 5 and leaves run_streak unchanged. -/
theorem claim_C9_witness :
    (summary { exDB3 with
        runs := { userId := 1, day := 1, distanceKm := 5, durationMin := 30 }
          :: exDB3.runs } exUser 0).run_7d_km
      = 5 + (summary exDB3 exUser 0).run_7d_km
    ∧ (summary { exDB3 with
        runs := { userId := 1, day := 1, distanceKm := 5, durationMin := 30 }
          :: exDB3.runs } exUser 0).run_streak
      = (summary exDB3 exUser 0).run_streak := by
  exact claim_C9 exDB3 exUser 0
    { userId := 1, day := 1, distanceKm := 5, durationMin := 30 } rfl (by decide)

end Minifitna
